import Mathlib

/-!
Verification of the cosmological distance / Kepler-solver core of the
`astroutils` repository (files `cosmology.py`, `astroutils.py`, `orbits.py`,
`stats.py`), shallowly embedded in Lean.

Python floating-point code is modelled over the reals.  Fallible Python
operations return `Except PyError ℝ`:
* `math.sqrt` raises `ValueError` (message `math domain error`) on a
  negative argument;
* float division raises `ZeroDivisionError` on a zero divisor;
* reading an unbound module-level name raises `NameError`.

`scipy.integrate.quad` and `scipy.optimize.brentq` are external
collaborators; they are modelled at the boundary the spec gives them
(QE contract §4.1 and RB contract §4.3): quadrature returns the exact
interval integral when the integrand evaluates cleanly on the integration
interval and propagates an integrand exception otherwise (a degenerate
interval integrates to 0 without evaluating the integrand), and the root
finder checks its sign-change precondition and then returns a point within
`brentq_xtol` of a true root.
-/

open Classical

/-- Python exception kinds raised by the embedded functions. -/
inductive PyError where
  | valueError
  | zeroDivisionError
  | nameError
  deriving DecidableEq

/-- The error payload of a failed computation (junk `valueError` on success). -/
def errOf (x : Except PyError ℝ) : PyError :=
  match x with
  | Except.error e => e
  | Except.ok _ => PyError.valueError

/-- Python `math.sqrt`: raises `ValueError` on a negative argument. -/
noncomputable def msqrt (x : ℝ) : Except PyError ℝ :=
  if x < 0 then Except.error PyError.valueError else Except.ok (Real.sqrt x)

/-- Python float division `x / y`: raises `ZeroDivisionError` when `y = 0`. -/
noncomputable def pydiv (x y : ℝ) : Except PyError ℝ :=
  if y = 0 then Except.error PyError.zeroDivisionError else Except.ok (x / y)

/-- Value of a successful computation (junk value `0` on an error). -/
def exVal (x : Except PyError ℝ) : ℝ :=
  match x with
  | Except.ok v => v
  | Except.error _ => 0

/-- The integrand raises an exception somewhere on the integration interval. -/
def integrandFails (f : ℝ → Except PyError ℝ) (a b : ℝ) : Prop :=
  ∃ x, x ∈ Set.uIoc a b ∧ ∃ e, f x = Except.error e

/-- External collaborator `scipy.integrate.quad`, modelled at the boundary the
spec's QE contract (§4.1) gives it: on a degenerate interval the value is `0`
with no integrand evaluation; otherwise the exact interval integral is
returned when the integrand evaluates cleanly on the interval, and an
exception raised by the integrand propagates out of the quadrature. -/
noncomputable def quad (f : ℝ → Except PyError ℝ) (a b : ℝ) : Except PyError ℝ :=
  if h : integrandFails f a b then Except.error (errOf (f h.choose))
  else Except.ok (∫ x in a..b, exVal (f x))

/-- External collaborator `scipy.integrate.quad` with an infinite upper bound,
modelled like `quad` with the integral taken over `(a, ∞)`. -/
noncomputable def quadInf (f : ℝ → Except PyError ℝ) (a : ℝ) : Except PyError ℝ :=
  if h : ∃ x, x ∈ Set.Ioi a ∧ ∃ e, f x = Except.error e then
    Except.error (errOf (f h.choose))
  else Except.ok (∫ x in Set.Ioi a, exVal (f x))

lemma quad_ok {f : ℝ → Except PyError ℝ} {a b : ℝ}
    (h : ∀ x ∈ Set.uIoc a b, ∃ v, f x = Except.ok v) :
    quad f a b = Except.ok (∫ x in a..b, exVal (f x)) := by
  rw [quad, dif_neg]
  rintro ⟨x, hx, e, he⟩
  obtain ⟨v, hv⟩ := h x hx
  rw [hv] at he
  exact Except.noConfusion he

lemma quad_same (f : ℝ → Except PyError ℝ) (a : ℝ) :
    quad f a a = Except.ok 0 := by
  have h := quad_ok (f := f) (a := a) (b := a) (by
    intro x hx
    rw [Set.uIoc_of_le le_rfl] at hx
    exact absurd hx.2 (not_le.mpr hx.1))
  rw [h, intervalIntegral.integral_same]

lemma quad_error_unique {f : ℝ → Except PyError ℝ} {a b : ℝ} {e₀ : PyError}
    (hbad : ∃ x, x ∈ Set.uIoc a b ∧ f x = Except.error e₀)
    (hall : ∀ x ∈ Set.uIoc a b, (∃ v, f x = Except.ok v) ∨ f x = Except.error e₀) :
    quad f a b = Except.error e₀ := by
  have h : integrandFails f a b := by
    obtain ⟨x, hx, hfx⟩ := hbad
    exact ⟨x, hx, e₀, hfx⟩
  rw [quad, dif_pos h]
  rcases hall h.choose h.choose_spec.1 with ⟨v, hv⟩ | herr
  · obtain ⟨e, he⟩ := h.choose_spec.2
    rw [hv] at he
    exact Except.noConfusion he
  · rw [herr]
    rfl

lemma quad_error_exists {f : ℝ → Except PyError ℝ} {a b : ℝ}
    (hbad : integrandFails f a b) :
    ∃ e, quad f a b = Except.error e := by
  rw [quad, dif_pos hbad]
  exact ⟨_, rfl⟩

lemma quadInf_error_mem {f : ℝ → Except PyError ℝ} {a : ℝ} {e : PyError}
    (h : quadInf f a = Except.error e) :
    ∃ x, x ∈ Set.Ioi a ∧ f x = Except.error e := by
  rw [quadInf] at h
  split at h
  case isTrue hh =>
    refine ⟨hh.choose, hh.choose_spec.1, ?_⟩
    obtain ⟨e', he'⟩ := hh.choose_spec.2
    rw [he'] at h
    have hee : e' = e := by simpa [errOf] using Except.error.inj h
    rw [← hee]
    exact he'
  case isFalse => exact absurd h (by simp)

/-- `consts.py` and `astroutils.py`: `hubble_constant = 70.4  # km / s / Mpc`. -/
def hubble_constant : ℝ := 70.4

/-- `consts.py` and `astroutils.py`: `speed_of_light_km_s = 299792.458`. -/
def speed_of_light_km_s : ℝ := 299792.458

/-- The quantity under the square root of the expansion integrand of
`i_integral` (`cosmology.py`, identical in `astroutils.py`). -/
def radicand (z Ωm Ωl Ωr Ωk : ℝ) : ℝ :=
  Ωm * (1 + z)^3 + Ωr * (1 + z)^4 + Ωl + (1 - Ωk) * (1 + z)^2

/-- The integrand lambda of `i_integral`:
`lambda z: 1 / sqrt(omega_m*(1+z)**3 + omega_r*(1+z)**4 + omega_l + (1-omega_k)*(1+z)**2)`. -/
noncomputable def expansion_integrand (z Ωm Ωl Ωr Ωk : ℝ) : Except PyError ℝ :=
  match msqrt (radicand z Ωm Ωl Ωr Ωk) with
  | Except.error e => Except.error e
  | Except.ok s => pydiv 1 s

/-- `cosmology.py` `i_integral` (identical in `astroutils.py`). -/
noncomputable def i_integral (z Ωm Ωl Ωr Ωk : ℝ) : Except PyError ℝ :=
  quad (fun x => expansion_integrand x Ωm Ωl Ωr Ωk) 0 z

/-- `cosmology.py` `s_func` (identical in `astroutils.py`).  Python evaluates
`1 / sqrt(omega_k - 1) * sin(i_integral(...) * sqrt(omega_k - 1))` left to
right: the first `sqrt(omega_k - 1)`, the division, the `i_integral` call,
the second `sqrt(omega_k - 1)`, then `sin`/`sinh` and the product. -/
noncomputable def s_func (z Ωm Ωl Ωr Ωk : ℝ) : Except PyError ℝ :=
  if Ωk = 1 then i_integral z Ωm Ωl Ωr Ωk
  else if Ωk < 1 then
    match msqrt (Ωk - 1) with
    | Except.error e => Except.error e
    | Except.ok s1 =>
      match pydiv 1 s1 with
      | Except.error e => Except.error e
      | Except.ok c =>
        match i_integral z Ωm Ωl Ωr Ωk with
        | Except.error e => Except.error e
        | Except.ok I =>
          match msqrt (Ωk - 1) with
          | Except.error e => Except.error e
          | Except.ok s2 => Except.ok (c * Real.sin (I * s2))
  else
    match msqrt (Ωk - 1) with
    | Except.error e => Except.error e
    | Except.ok s1 =>
      match pydiv 1 s1 with
      | Except.error e => Except.error e
      | Except.ok c =>
        match i_integral z Ωm Ωl Ωr Ωk with
        | Except.error e => Except.error e
        | Except.ok I =>
          match msqrt (Ωk - 1) with
          | Except.error e => Except.error e
          | Except.ok s2 => Except.ok (c * Real.sinh (I * s2))

/-- `cosmology.py` `comove_coord`: `consts.speed_of_light_km_s /
consts.hubble_constant * s_func(...)` (the `astroutils.py` copy reads the same
constant values from its own module globals). -/
noncomputable def comove_coord (z Ωm Ωl Ωr Ωk : ℝ) : Except PyError ℝ :=
  match s_func z Ωm Ωl Ωr Ωk with
  | Except.error e => Except.error e
  | Except.ok s => Except.ok (speed_of_light_km_s / hubble_constant * s)

/-- `cosmology.py` `luminosity_distance`: `comove_coord(...) * (1 + z)`. -/
noncomputable def luminosity_distance (z Ωm Ωl Ωr Ωk : ℝ) : Except PyError ℝ :=
  match comove_coord z Ωm Ωl Ωr Ωk with
  | Except.error e => Except.error e
  | Except.ok d => Except.ok (d * (1 + z))

/-- `cosmology.py` `angular_distance`: `luminosity_distance(...) / (1 + z)**2`. -/
noncomputable def angular_distance (z Ωm Ωl Ωr Ωk : ℝ) : Except PyError ℝ :=
  match luminosity_distance z Ωm Ωl Ωr Ωk with
  | Except.error e => Except.error e
  | Except.ok l => pydiv l ((1 + z)^2)

/-- The quantity under the square root of the `universe_age` integrand
(the source writes the same four terms in the order `Ωm, Ωl, Ωr, curvature`). -/
def age_radicand (z Ωm Ωl Ωr Ωk : ℝ) : ℝ :=
  Ωm * (1 + z)^3 + Ωl + Ωr * (1 + z)^4 + (1 - Ωk) * (1 + z)^2

/-- The integrand lambda of `universe_age`:
`lambda z: 1 / ((1 + z) * sqrt(...))`. -/
noncomputable def age_integrand (z Ωm Ωl Ωr Ωk : ℝ) : Except PyError ℝ :=
  match msqrt (age_radicand z Ωm Ωl Ωr Ωk) with
  | Except.error e => Except.error e
  | Except.ok s => pydiv 1 ((1 + z) * s)

/-- Shared body of `universe_age`, parametrised by the result of reading the
module-level name `hubble_constant`: `h_const = hubble_constant * 1.022e-6`,
then `1 / h_const * quad(lambda ..., redshift, inf)[0]`. -/
noncomputable def universe_age_core (hubble : Except PyError ℝ) (z Ωm Ωl Ωr Ωk : ℝ) :
    Except PyError ℝ :=
  match hubble with
  | Except.error e => Except.error e
  | Except.ok hc =>
    match pydiv 1 (hc * 1.022e-6) with
    | Except.error e => Except.error e
    | Except.ok inv =>
      match quadInf (fun x => age_integrand x Ωm Ωl Ωr Ωk) z with
      | Except.error e => Except.error e
      | Except.ok I => Except.ok (inv * I)

/-- `cosmology.py` `universe_age`: the bare name `hubble_constant` is read, but
`cosmology.py` never assigns or imports that name at module level (its
only import of `consts` is local to `comove_coord` and binds the name
`consts` there), so the read raises `NameError`. -/
noncomputable def cosmology_universe_age (z Ωm Ωl Ωr Ωk : ℝ) : Except PyError ℝ :=
  universe_age_core (Except.error PyError.nameError) z Ωm Ωl Ωr Ωk

/-- `astroutils.py` `universe_age`: the same body, with the module-level
constant `hubble_constant = 70.4` in scope. -/
noncomputable def astroutils_universe_age (z Ωm Ωl Ωr Ωk : ℝ) : Except PyError ℝ :=
  universe_age_core (Except.ok hubble_constant) z Ωm Ωl Ωr Ωk

/-- Default absolute tolerance of `scipy.optimize.brentq` (the spec's RB
contract promises double-precision-class accuracy, about `1e-12`, on the
returned point). -/
noncomputable def brentq_xtol : ℝ := 1 / 10^12

/-- The function whose root `manom_eanom` brackets:
`lambda x: x - e * sin(x) - m` (`orbits.py`). -/
noncomputable def keplerF (e m x : ℝ) : ℝ := x - e * Real.sin x - m

/-- External collaborator `scipy.optimize.brentq`, modelled at the boundary the
spec's RB contract (§4.3) gives it: a `ValueError` when `f(a)` and `f(b)` do
not bracket a sign change, otherwise a returned point within `brentq_xtol` of
a true root of `f` in `[a, b]`. -/
noncomputable def brentq (f : ℝ → ℝ) (a b : ℝ) : Except PyError ℝ :=
  if 0 < f a * f b then Except.error PyError.valueError
  else if h : ∃ x, x ∈ Set.Icc a b ∧ ∃ r, r ∈ Set.Icc a b ∧ f r = 0 ∧ |x - r| ≤ brentq_xtol then
    Except.ok h.choose
  else Except.error PyError.valueError

/-- `orbits.py` `manom_eanom` (identical in `astroutils.py`): raises
`ValueError('mean anomaly must be an angle between 0 and 2pi')` when
`m < 0 or m > 2 * pi`, otherwise `brentq(lambda x: x - e*sin(x) - m, 0, 2*pi)`. -/
noncomputable def manom_eanom (e m : ℝ) : Except PyError ℝ :=
  if m < 0 ∨ 2 * Real.pi < m then Except.error PyError.valueError
  else brentq (keplerF e m) 0 (2 * Real.pi)

/-- Python values passed to `wilson_score` (`stats.py`).  The code targets
Python 2, where `long` is a builtin numeric type and mixed-type comparisons
such as a string against a number are legal. -/
inductive PyVal where
  | int (n : ℤ)
  | long (n : ℤ)
  | float (x : ℝ)
  | str (s : String)

/-- `isinstance(v, (int, float, long))`. -/
def isNumber : PyVal → Bool
  | PyVal.int _ => true
  | PyVal.long _ => true
  | PyVal.float _ => true
  | PyVal.str _ => false

/-- Numeric value of a number (junk `0` for a string). -/
noncomputable def numVal : PyVal → ℝ
  | PyVal.int n => n
  | PyVal.long n => n
  | PyVal.float x => x
  | PyVal.str _ => 0

/-- Python 2 comparison `v < c` against a number `c`: every string compares
greater than every number, so the result is `false` for a string. -/
noncomputable def pyLt (v : PyVal) (c : ℝ) : Bool :=
  match v with
  | PyVal.str _ => false
  | w => decide (numVal w < c)

/-- Python 2 comparison `v > c` against a number `c`: `true` for a string. -/
noncomputable def pyGt (v : PyVal) (c : ℝ) : Bool :=
  match v with
  | PyVal.str _ => true
  | w => decide (c < numVal w)

/-- Errors `wilson_score` can raise, distinguished by the check that raises
them, mirroring the source's distinct messages. -/
inductive WilsonError where
  | typeErrP
  | typeErrN
  | typeErrZ
  | valueErrP
  | valueErrN
  | valueErrZ
  | castError
  | domainError
  | zeroDivision
  deriving DecidableEq

/-- Python 2 `int(v)`: truncation toward zero for numbers, parse for strings,
raising `ValueError` when the string is not an integer literal. -/
noncomputable def pyInt (v : PyVal) : Except WilsonError ℝ :=
  match v with
  | PyVal.int n => Except.ok (n : ℝ)
  | PyVal.long n => Except.ok (n : ℝ)
  | PyVal.float x => Except.ok ((if 0 ≤ x then (⌊x⌋ : ℤ) else (⌈x⌉ : ℤ)) : ℝ)
  | PyVal.str s =>
    match s.toInt? with
    | some k => Except.ok (k : ℝ)
    | none => Except.error WilsonError.castError

/-- `math.sqrt` inside `wilson_score`. -/
noncomputable def wsqrt (x : ℝ) : Except WilsonError ℝ :=
  if x < 0 then Except.error WilsonError.domainError else Except.ok (Real.sqrt x)

/-- Division inside `wilson_score`. -/
noncomputable def wdiv (a b : ℝ) : Except WilsonError ℝ :=
  if b = 0 then Except.error WilsonError.zeroDivision else Except.ok (a / b)

/-- `stats.py` `wilson_score`.  The second type-check branch repeats the test
of `p` exactly as the source writes it (`elif not isinstance(p, (int, float,
long))` guarding `TypeError('wilson_score(): n must be a number')`), so that
branch is dead.  Python 2 integer division (floor) versus true division
affects only the numeric payload of a successful result, never which
exception is raised; division is modelled as real division. -/
noncomputable def wilson_score (p n z : PyVal) : Except WilsonError (ℝ × ℝ) :=
  if isNumber p = false then Except.error WilsonError.typeErrP
  else if isNumber p = false then Except.error WilsonError.typeErrN
  else if isNumber z = false then Except.error WilsonError.typeErrZ
  else if pyGt p 1 = true ∨ pyLt p 0 = true then Except.error WilsonError.valueErrP
  else if pyLt n 0 = true then Except.error WilsonError.valueErrN
  else if pyLt z 0 = true then Except.error WilsonError.valueErrZ
  else
    match (match n with | PyVal.int k => Except.ok (k : ℝ) | w => pyInt w) with
    | Except.error e => Except.error e
    | Except.ok nv =>
      match wdiv (numVal p) nv with
      | Except.error e => Except.error e
      | Except.ok t1 =>
        match wdiv (numVal z ^ 2) (4 * nv ^ 2) with
        | Except.error e => Except.error e
        | Except.ok t2 =>
          match wsqrt (t1 * (1 - numVal p) + t2) with
          | Except.error e => Except.error e
          | Except.ok sq =>
            match wdiv (numVal z ^ 2) nv with
            | Except.error e => Except.error e
            | Except.ok t3 =>
              match wdiv 1 (1 + t3) with
              | Except.error e => Except.error e
              | Except.ok c =>
                match wdiv (numVal z ^ 2) (2 * nv) with
                | Except.error e => Except.error e
                | Except.ok t4 =>
                  Except.ok (c * (numVal p + t4 - numVal z * sq),
                             c * (numVal p + t4 + numVal z * sq))

lemma pyInt_ne_typeErrN (v : PyVal) : pyInt v ≠ Except.error WilsonError.typeErrN := by
  cases v <;> simp [pyInt]
  next s => cases s.toInt? <;> simp

lemma wdiv_ne_typeErrN (a b : ℝ) : wdiv a b ≠ Except.error WilsonError.typeErrN := by
  rw [wdiv]
  split <;> simp

lemma wsqrt_ne_typeErrN (x : ℝ) : wsqrt x ≠ Except.error WilsonError.typeErrN := by
  rw [wsqrt]
  split <;> simp

lemma wilson_score_no_typeErrN (p n z : PyVal) :
    wilson_score p n z ≠ Except.error WilsonError.typeErrN := by
  rw [wilson_score]
  repeat' split
  all_goals intro hc
  all_goals try exact Except.noConfusion hc
  all_goals injection hc with hc2
  all_goals try exact WilsonError.noConfusion hc2
  all_goals subst hc2
  all_goals first
    | exact pyInt_ne_typeErrN _ (by assumption)
    | exact wdiv_ne_typeErrN _ _ (by assumption)
    | exact wsqrt_ne_typeErrN _ (by assumption)

lemma expansion_integrand_pos {z Ωm Ωl Ωr Ωk : ℝ} (h : 0 < radicand z Ωm Ωl Ωr Ωk) :
    expansion_integrand z Ωm Ωl Ωr Ωk =
      Except.ok (1 / Real.sqrt (radicand z Ωm Ωl Ωr Ωk)) := by
  have h₁ : ¬ radicand z Ωm Ωl Ωr Ωk < 0 := not_lt.mpr h.le
  have h₂ : Real.sqrt (radicand z Ωm Ωl Ωr Ωk) ≠ 0 := (Real.sqrt_pos.mpr h).ne'
  simp [expansion_integrand, msqrt, pydiv, h₁, h₂]

lemma expansion_integrand_neg {z Ωm Ωl Ωr Ωk : ℝ} (h : radicand z Ωm Ωl Ωr Ωk < 0) :
    expansion_integrand z Ωm Ωl Ωr Ωk = Except.error PyError.valueError := by
  simp [expansion_integrand, msqrt, h]

lemma expansion_integrand_zero {z Ωm Ωl Ωr Ωk : ℝ} (h : radicand z Ωm Ωl Ωr Ωk = 0) :
    expansion_integrand z Ωm Ωl Ωr Ωk = Except.error PyError.zeroDivisionError := by
  simp [expansion_integrand, msqrt, pydiv, h]

lemma i_integral_zero (Ωm Ωl Ωr Ωk : ℝ) : i_integral 0 Ωm Ωl Ωr Ωk = Except.ok 0 :=
  quad_same _ 0

lemma s_func_flat (z Ωm Ωl Ωr Ωk : ℝ) (h : Ωk = 1) :
    s_func z Ωm Ωl Ωr Ωk = i_integral z Ωm Ωl Ωr Ωk := by
  rw [s_func, if_pos h]

lemma s_func_open (z Ωm Ωl Ωr Ωk : ℝ) (h : Ωk < 1) :
    s_func z Ωm Ωl Ωr Ωk = Except.error PyError.valueError := by
  rw [s_func, if_neg h.ne, if_pos h]
  have h0 : Ωk - 1 < 0 := by linarith
  simp [msqrt, h0]

lemma s_func_closed (z Ωm Ωl Ωr Ωk : ℝ) (h : 1 < Ωk) {I : ℝ}
    (hI : i_integral z Ωm Ωl Ωr Ωk = Except.ok I) :
    s_func z Ωm Ωl Ωr Ωk =
      Except.ok (Real.sinh (I * Real.sqrt (Ωk - 1)) / Real.sqrt (Ωk - 1)) := by
  rw [s_func, if_neg h.ne', if_neg (not_lt.mpr h.le)]
  have h0 : ¬ Ωk - 1 < 0 := by linarith
  have hs : Real.sqrt (Ωk - 1) ≠ 0 := (Real.sqrt_pos.mpr (by linarith)).ne'
  simp [msqrt, pydiv, h0, hs, hI]
  exact (div_eq_inv_mul _ _).symm

lemma comove_coord_ok {z Ωm Ωl Ωr Ωk s : ℝ} (h : s_func z Ωm Ωl Ωr Ωk = Except.ok s) :
    comove_coord z Ωm Ωl Ωr Ωk =
      Except.ok (speed_of_light_km_s / hubble_constant * s) := by
  rw [comove_coord, h]

lemma comove_coord_err {z Ωm Ωl Ωr Ωk : ℝ} {e : PyError}
    (h : s_func z Ωm Ωl Ωr Ωk = Except.error e) :
    comove_coord z Ωm Ωl Ωr Ωk = Except.error e := by
  rw [comove_coord, h]

lemma luminosity_ok {z Ωm Ωl Ωr Ωk d : ℝ} (h : comove_coord z Ωm Ωl Ωr Ωk = Except.ok d) :
    luminosity_distance z Ωm Ωl Ωr Ωk = Except.ok (d * (1 + z)) := by
  rw [luminosity_distance, h]

lemma luminosity_err {z Ωm Ωl Ωr Ωk : ℝ} {e : PyError}
    (h : comove_coord z Ωm Ωl Ωr Ωk = Except.error e) :
    luminosity_distance z Ωm Ωl Ωr Ωk = Except.error e := by
  rw [luminosity_distance, h]

lemma angular_ok {z Ωm Ωl Ωr Ωk l : ℝ} (h : luminosity_distance z Ωm Ωl Ωr Ωk = Except.ok l)
    (hz : (1 + z)^2 ≠ 0) :
    angular_distance z Ωm Ωl Ωr Ωk = Except.ok (l / (1 + z)^2) := by
  rw [angular_distance, h]
  simp [pydiv, hz]

lemma angular_err {z Ωm Ωl Ωr Ωk : ℝ} {e : PyError}
    (h : luminosity_distance z Ωm Ωl Ωr Ωk = Except.error e) :
    angular_distance z Ωm Ωl Ωr Ωk = Except.error e := by
  rw [angular_distance, h]

lemma comove_coord_zero_ge {Ωm Ωl Ωr Ωk : ℝ} (h : 1 ≤ Ωk) :
    comove_coord 0 Ωm Ωl Ωr Ωk = Except.ok 0 := by
  have hs : s_func 0 Ωm Ωl Ωr Ωk = Except.ok 0 := by
    rcases eq_or_lt_of_le h with heq | hlt
    · rw [s_func_flat 0 Ωm Ωl Ωr Ωk heq.symm, i_integral_zero]
    · rw [s_func_closed 0 Ωm Ωl Ωr Ωk hlt (i_integral_zero Ωm Ωl Ωr Ωk)]
      simp
  rw [comove_coord_ok hs, mul_zero]

lemma abs_sin_sub_sin_le (x y : ℝ) : |Real.sin x - Real.sin y| ≤ |x - y| := by
  rw [Real.sin_sub_sin]
  have h1 : |Real.sin ((x - y) / 2)| ≤ |(x - y) / 2| := Real.abs_sin_le_abs
  have h2 : |Real.cos ((x + y) / 2)| ≤ 1 := Real.abs_cos_le_one _
  calc |2 * Real.sin ((x - y) / 2) * Real.cos ((x + y) / 2)|
      = 2 * |Real.sin ((x - y) / 2)| * |Real.cos ((x + y) / 2)| := by
        rw [abs_mul, abs_mul, abs_two]
    _ ≤ 2 * |(x - y) / 2| * 1 := by
        apply mul_le_mul _ h2 (abs_nonneg _) (by positivity)
        exact mul_le_mul_of_nonneg_left h1 (by norm_num)
    _ = |x - y| := by
        rw [mul_one, abs_div, abs_two]
        ring

lemma keplerF_continuous (e m : ℝ) : Continuous (keplerF e m) := by
  unfold keplerF
  exact (continuous_id.sub (continuous_const.mul Real.continuous_sin)).sub continuous_const

lemma keplerF_strictMono {e : ℝ} (he0 : 0 ≤ e) (he1 : e < 1) (m : ℝ) :
    StrictMono (keplerF e m) := by
  intro x y hxy
  have h2 : |Real.sin y - Real.sin x| ≤ |y - x| := abs_sin_sub_sin_le y x
  have h3 : |y - x| = y - x := abs_of_pos (sub_pos.mpr hxy)
  have h1 : e * (Real.sin y - Real.sin x) ≤ e * |Real.sin y - Real.sin x| :=
    mul_le_mul_of_nonneg_left (le_abs_self _) he0
  have h4 : e * |Real.sin y - Real.sin x| ≤ e * (y - x) := by
    rw [← h3]
    exact mul_le_mul_of_nonneg_left h2 he0
  have h5 : e * (y - x) < 1 * (y - x) := mul_lt_mul_of_pos_right he1 (sub_pos.mpr hxy)
  have hexp : e * (Real.sin y - Real.sin x) = e * Real.sin y - e * Real.sin x := by ring
  unfold keplerF
  linarith [h1, h4, h5]

lemma keplerF_root {e m : ℝ} (hm0 : 0 ≤ m) (hm1 : m ≤ 2 * Real.pi) :
    ∃ r ∈ Set.Icc 0 (2 * Real.pi), keplerF e m r = 0 := by
  have h0 : keplerF e m 0 = -m := by simp [keplerF]
  have h2 : keplerF e m (2 * Real.pi) = 2 * Real.pi - m := by
    simp [keplerF, Real.sin_two_pi]
  have hsub := intermediate_value_Icc (by positivity : (0:ℝ) ≤ 2 * Real.pi)
      (keplerF_continuous e m).continuousOn
  have h0m : (0:ℝ) ∈ Set.Icc (keplerF e m 0) (keplerF e m (2 * Real.pi)) := by
    rw [Set.mem_Icc, h0, h2]
    exact ⟨by linarith, by linarith⟩
  obtain ⟨r, hr, hr0⟩ := hsub h0m
  exact ⟨r, hr, hr0⟩

lemma keplerF_ends (e m : ℝ) :
    keplerF e m 0 = -m ∧ keplerF e m (2 * Real.pi) = 2 * Real.pi - m := by
  constructor
  · simp [keplerF]
  · simp [keplerF, Real.sin_two_pi]

lemma manom_eanom_ok (e m : ℝ) (hm0 : 0 ≤ m) (hm1 : m ≤ 2 * Real.pi) :
    ∃ E, manom_eanom e m = Except.ok E ∧ E ∈ Set.Icc 0 (2 * Real.pi) ∧
      ∃ r, r ∈ Set.Icc 0 (2 * Real.pi) ∧ keplerF e m r = 0 ∧ |E - r| ≤ brentq_xtol := by
  rw [manom_eanom, if_neg (by rintro (h | h) <;> linarith)]
  rw [brentq]
  have hprod : ¬ 0 < keplerF e m 0 * keplerF e m (2 * Real.pi) := by
    rw [(keplerF_ends e m).1, (keplerF_ends e m).2]
    push_neg
    nlinarith
  rw [if_neg hprod]
  obtain ⟨r, hrmem, hr⟩ := keplerF_root (e := e) hm0 hm1
  have hex : ∃ x, x ∈ Set.Icc 0 (2 * Real.pi) ∧ ∃ r', r' ∈ Set.Icc 0 (2 * Real.pi) ∧
      keplerF e m r' = 0 ∧ |x - r'| ≤ brentq_xtol := by
    refine ⟨r, hrmem, r, hrmem, hr, ?_⟩
    rw [sub_self, abs_zero, brentq_xtol]
    positivity
  rw [dif_pos hex]
  exact ⟨hex.choose, rfl, hex.choose_spec.1, hex.choose_spec.2⟩

lemma manom_eanom_out_of_range {e m : ℝ} (h : m < 0 ∨ 2 * Real.pi < m) :
    manom_eanom e m = Except.error PyError.valueError := by
  rw [manom_eanom, if_pos h]

lemma kepler_residual {e m E r : ℝ} (he0 : 0 ≤ e) (he1 : e < 1)
    (hr : keplerF e m r = 0) (hd : |E - r| ≤ brentq_xtol) :
    |E - e * Real.sin E - m| ≤ 1 / 10^10 := by
  have hk : E - e * Real.sin E - m = (E - r) - e * (Real.sin E - Real.sin r) := by
    have h0 : r - e * Real.sin r - m = 0 := hr
    nlinarith [h0]
  rw [hk]
  have tri : |(E - r) - e * (Real.sin E - Real.sin r)| ≤
      |E - r| + |e * (Real.sin E - Real.sin r)| := by
    calc |(E - r) - e * (Real.sin E - Real.sin r)|
        = |(E - r) + -(e * (Real.sin E - Real.sin r))| := by ring_nf
      _ ≤ |E - r| + |-(e * (Real.sin E - Real.sin r))| := abs_add _ _
      _ = |E - r| + |e * (Real.sin E - Real.sin r)| := by rw [abs_neg]
  have h2 : |e * (Real.sin E - Real.sin r)| ≤ e * |E - r| := by
    rw [abs_mul, abs_of_nonneg he0]
    exact mul_le_mul_of_nonneg_left (abs_sin_sub_sin_le E r) he0
  have hx : brentq_xtol = 1 / 10^12 := rfl
  have hEr : |E - r| ≤ 1 / 10^12 := hx ▸ hd
  have habs : 0 ≤ |E - r| := abs_nonneg _
  calc |(E - r) - e * (Real.sin E - Real.sin r)|
      ≤ |E - r| + e * |E - r| := le_trans tri (by linarith)
    _ ≤ 1 / 10^12 + 1 * (1 / 10^12) := by nlinarith
    _ ≤ 1 / 10^10 := by norm_num

lemma age_integrand_cases (x Ωm Ωl Ωr Ωk : ℝ) :
    (∃ v, age_integrand x Ωm Ωl Ωr Ωk = Except.ok v) ∨
    age_integrand x Ωm Ωl Ωr Ωk = Except.error PyError.valueError ∨
    age_integrand x Ωm Ωl Ωr Ωk = Except.error PyError.zeroDivisionError := by
  by_cases h : age_radicand x Ωm Ωl Ωr Ωk < 0
  · right
    left
    simp [age_integrand, msqrt, h]
  · by_cases h2 : (1 + x) * Real.sqrt (age_radicand x Ωm Ωl Ωr Ωk) = 0
    · right
      right
      simp [age_integrand, msqrt, pydiv, h, h2]
    · left
      refine ⟨1 / ((1 + x) * Real.sqrt (age_radicand x Ωm Ωl Ωr Ωk)), ?_⟩
      simp [age_integrand, msqrt, pydiv, h, h2]

lemma cosmology_universe_age_nameError (z Ωm Ωl Ωr Ωk : ℝ) :
    cosmology_universe_age z Ωm Ωl Ωr Ωk = Except.error PyError.nameError := rfl

lemma astroutils_universe_age_not_nameError (z Ωm Ωl Ωr Ωk : ℝ) :
    astroutils_universe_age z Ωm Ωl Ωr Ωk ≠ Except.error PyError.nameError := by
  intro hcon
  have hden : hubble_constant * 1.022e-6 ≠ 0 := by
    rw [hubble_constant]
    norm_num
  rw [astroutils_universe_age, universe_age_core] at hcon
  simp only [pydiv, if_neg hden] at hcon
  cases hq : quadInf (fun x => age_integrand x Ωm Ωl Ωr Ωk) z with
  | error e =>
    rw [hq] at hcon
    simp only at hcon
    have he : e = PyError.nameError := Except.error.inj hcon
    subst he
    obtain ⟨x, -, hx⟩ := quadInf_error_mem hq
    rcases age_integrand_cases x Ωm Ωl Ωr Ωk with ⟨v, hv⟩ | hv | hv
    · rw [hx] at hv
      exact Except.noConfusion hv
    · rw [hx] at hv
      exact PyError.noConfusion (Except.error.inj hv)
    · rw [hx] at hv
      exact PyError.noConfusion (Except.error.inj hv)
  | ok I =>
    rw [hq] at hcon
    simp only at hcon
    exact Except.noConfusion hcon

lemma radicand_c9 (x : ℝ) : radicand x 1 4 0 4 = (x - 1)^2 * (x + 2) := by
  rw [radicand]
  ring

lemma i_integral_c9 : i_integral 2 1 4 0 4 = Except.error PyError.zeroDivisionError := by
  rw [i_integral]
  apply quad_error_unique
  · refine ⟨1, ?_, ?_⟩
    · rw [Set.uIoc_of_le (by norm_num : (0:ℝ) ≤ 2)]
      exact ⟨by norm_num, by norm_num⟩
    · exact expansion_integrand_zero (by rw [radicand_c9]; norm_num)
  · intro x hx
    rw [Set.uIoc_of_le (by norm_num : (0:ℝ) ≤ 2)] at hx
    by_cases hx1 : x = 1
    · right
      exact expansion_integrand_zero (by rw [hx1, radicand_c9]; norm_num)
    · left
      refine ⟨_, expansion_integrand_pos ?_⟩
      rw [radicand_c9]
      have h1 : 0 < (x - 1)^2 := pow_two_pos_of_ne_zero (sub_ne_zero.mpr hx1)
      have h2 : 0 < x + 2 := by linarith [hx.1]
      positivity

lemma i_integral_bad (z Ωm Ωl Ωr Ωk : ℝ)
    (h : ∃ x ∈ Set.uIoc 0 z, radicand x Ωm Ωl Ωr Ωk ≤ 0) :
    ∃ e, i_integral z Ωm Ωl Ωr Ωk = Except.error e := by
  obtain ⟨x, hx, hr⟩ := h
  apply quad_error_exists
  rcases lt_or_eq_of_le hr with hlt | heq
  · exact ⟨x, hx, _, expansion_integrand_neg hlt⟩
  · exact ⟨x, hx, _, expansion_integrand_zero heq⟩

lemma i_integral_neg_radicand (z Ωm Ωl Ωr Ωk : ℝ)
    (hbad : ∃ x ∈ Set.uIoc 0 z, radicand x Ωm Ωl Ωr Ωk ≤ 0)
    (hnz : ∀ x ∈ Set.uIoc 0 z, radicand x Ωm Ωl Ωr Ωk ≠ 0) :
    i_integral z Ωm Ωl Ωr Ωk = Except.error PyError.valueError := by
  rw [i_integral]
  apply quad_error_unique
  · obtain ⟨x, hx, hr⟩ := hbad
    have hlt : radicand x Ωm Ωl Ωr Ωk < 0 := lt_of_le_of_ne hr (hnz x hx)
    exact ⟨x, hx, expansion_integrand_neg hlt⟩
  · intro x hx
    rcases lt_trichotomy (radicand x Ωm Ωl Ωr Ωk) 0 with hc | hc | hc
    · right
      exact expansion_integrand_neg hc
    · exact absurd hc (hnz x hx)
    · left
      exact ⟨_, expansion_integrand_pos hc⟩

lemma sqrt_six_ge_two : (2:ℝ) ≤ Real.sqrt 6 := by
  nlinarith [Real.sq_sqrt (by norm_num : (0:ℝ) ≤ 6), Real.sqrt_nonneg 6]

lemma zc1_nonneg : (0:ℝ) ≤ Real.sqrt 6 / 2 - 1 := by
  linarith [sqrt_six_ge_two]

lemma radicand_c1 (x : ℝ) : radicand x 0 2 0 2 = 2 - (1 + x)^2 := by
  rw [radicand]
  ring

lemma radicand_c1_pos {x : ℝ} (h0 : 0 ≤ x) (h1 : x ≤ Real.sqrt 6 / 2 - 1) :
    (1:ℝ)/2 ≤ radicand x 0 2 0 2 := by
  rw [radicand_c1]
  have h6 : Real.sqrt 6 ^ 2 = 6 := Real.sq_sqrt (by norm_num)
  nlinarith [sqrt_six_ge_two]

lemma sqrt_six_lt_two_sqrt_two : Real.sqrt 6 < 2 * Real.sqrt 2 := by
  have h1 : Real.sqrt 6 < Real.sqrt 8 := Real.sqrt_lt_sqrt (by norm_num) (by norm_num)
  have h8 : Real.sqrt 8 = 2 * Real.sqrt 2 := by
    rw [show (8:ℝ) = 2^2 * 2 by norm_num, Real.sqrt_mul (by positivity) 2,
      Real.sqrt_sq (by norm_num)]
  linarith [h8 ▸ h1]

lemma c1_hasDeriv {x : ℝ} (h0 : 0 ≤ x) (h1 : x ≤ Real.sqrt 6 / 2 - 1) :
    HasDerivAt (fun t => Real.arcsin ((1 + t) / Real.sqrt 2))
      (1 / Real.sqrt (2 - (1 + x)^2)) x := by
  have h2 : Real.sqrt 2 ^ 2 = 2 := Real.sq_sqrt (by norm_num)
  have h2pos : (0:ℝ) < Real.sqrt 2 := Real.sqrt_pos.mpr (by norm_num)
  set u : ℝ := (1 + x) / Real.sqrt 2 with hu
  have hupos : 0 < u := div_pos (by linarith) h2pos
  have hult : u < 1 := by
    rw [hu, div_lt_one h2pos]
    linarith [sqrt_six_lt_two_sqrt_two]
  have hne1 : u ≠ 1 := ne_of_lt hult
  have hnem1 : u ≠ -1 := by
    intro hc
    rw [hc] at hupos
    linarith
  have hinner : HasDerivAt (fun t : ℝ => (1 + t) / Real.sqrt 2) (1 / Real.sqrt 2) x := by
    have h := ((hasDerivAt_id x).const_add (1:ℝ)).div_const (Real.sqrt 2)
    simpa using h
  have hout : HasDerivAt Real.arcsin (1 / Real.sqrt (1 - u^2)) u :=
    Real.hasDerivAt_arcsin hnem1 hne1
  have hcomp := hout.comp x hinner
  have hrad : (0:ℝ) < 2 - (1 + x)^2 := by
    have := radicand_c1_pos h0 h1
    rw [radicand_c1] at this
    linarith
  have hval : 1 / Real.sqrt (1 - u^2) * (1 / Real.sqrt 2) = 1 / Real.sqrt (2 - (1 + x)^2) := by
    have hu2 : 1 - u^2 = (2 - (1 + x)^2) / 2 := by
      rw [hu, div_pow, h2]
      ring
    have hs : Real.sqrt (2 - (1 + x)^2) ≠ 0 := (Real.sqrt_pos.mpr hrad).ne'
    rw [hu2, Real.sqrt_div (by linarith) 2]
    have hs2 : Real.sqrt 2 ≠ 0 := h2pos.ne'
    field_simp
    ring
  exact hval ▸ hcomp

lemma c1_cont : ContinuousOn (fun x : ℝ => 1 / Real.sqrt (2 - (1 + x)^2))
    (Set.uIcc 0 (Real.sqrt 6 / 2 - 1)) := by
  apply ContinuousOn.div continuousOn_const
  · exact (Real.continuous_sqrt.comp (by continuity)).continuousOn
  · intro x hx
    rw [Set.uIcc_of_le zc1_nonneg] at hx
    have hge := radicand_c1_pos hx.1 hx.2
    rw [radicand_c1] at hge
    exact (Real.sqrt_pos.mpr (by linarith)).ne'

lemma c1_integral :
    ∫ x in (0:ℝ)..(Real.sqrt 6 / 2 - 1), exVal (expansion_integrand x 0 2 0 2) =
      Real.pi / 12 := by
  have hcongr : Set.EqOn (fun x => exVal (expansion_integrand x 0 2 0 2))
      (fun x : ℝ => 1 / Real.sqrt (2 - (1 + x)^2)) (Set.uIcc 0 (Real.sqrt 6 / 2 - 1)) := by
    intro x hx
    rw [Set.uIcc_of_le zc1_nonneg] at hx
    have hpos : 0 < radicand x 0 2 0 2 := by linarith [radicand_c1_pos hx.1 hx.2]
    show exVal (expansion_integrand x 0 2 0 2) = _
    rw [expansion_integrand_pos hpos, radicand_c1]
    rfl
  rw [intervalIntegral.integral_congr hcongr]
  have hderiv : ∀ x ∈ Set.uIcc (0:ℝ) (Real.sqrt 6 / 2 - 1),
      HasDerivAt (fun t => Real.arcsin ((1 + t) / Real.sqrt 2))
        (1 / Real.sqrt (2 - (1 + x)^2)) x := by
    intro x hx
    rw [Set.uIcc_of_le zc1_nonneg] at hx
    exact c1_hasDeriv hx.1 hx.2
  have hint : IntervalIntegrable (fun x : ℝ => 1 / Real.sqrt (2 - (1 + x)^2))
      MeasureTheory.volume 0 (Real.sqrt 6 / 2 - 1) := c1_cont.intervalIntegrable
  rw [intervalIntegral.integral_eq_sub_of_hasDerivAt hderiv hint]
  have h2pos : (0:ℝ) < Real.sqrt 2 := Real.sqrt_pos.mpr (by norm_num)
  have hms : Real.sqrt 2 * Real.sqrt 2 = 2 := Real.mul_self_sqrt (by norm_num)
  have e1 : (1 + (Real.sqrt 6 / 2 - 1)) / Real.sqrt 2 = Real.sqrt 3 / 2 := by
    rw [show (6:ℝ) = 2 * 3 by norm_num, Real.sqrt_mul (by norm_num : (0:ℝ) ≤ 2) 3]
    field_simp
    nlinarith [hms]
  have e2 : (1 + (0:ℝ)) / Real.sqrt 2 = Real.sqrt 2 / 2 := by
    field_simp
  rw [e1, e2, ← Real.sin_pi_div_three, ← Real.sin_pi_div_four,
    Real.arcsin_sin (by linarith [Real.pi_pos]) (by linarith [Real.pi_pos]),
    Real.arcsin_sin (by linarith [Real.pi_pos]) (by linarith [Real.pi_pos])]
  ring

lemma i_integral_c1 :
    i_integral (Real.sqrt 6 / 2 - 1) 0 2 0 2 = Except.ok (Real.pi / 12) := by
  rw [i_integral]
  have hall : ∀ x ∈ Set.uIoc (0:ℝ) (Real.sqrt 6 / 2 - 1),
      ∃ v, expansion_integrand x 0 2 0 2 = Except.ok v := by
    intro x hx
    rw [Set.uIoc_of_le zc1_nonneg] at hx
    have hpos : 0 < radicand x 0 2 0 2 := by
      linarith [radicand_c1_pos hx.1.le hx.2]
    exact ⟨_, expansion_integrand_pos hpos⟩
  rw [quad_ok hall, c1_integral]

lemma s_func_c1 :
    s_func (Real.sqrt 6 / 2 - 1) 0 2 0 2 = Except.ok (Real.sinh (Real.pi / 12)) := by
  rw [s_func_closed _ 0 2 0 2 (by norm_num) i_integral_c1]
  norm_num

lemma sinh_ne_sin_pi12 : Real.sinh (Real.pi / 12) ≠ Real.sin (Real.pi / 12) := by
  have hpos : 0 < Real.pi / 12 := by positivity
  have hs : Real.sin (Real.pi / 12) < Real.pi / 12 := Real.sin_lt hpos
  have hh : Real.pi / 12 < Real.sinh (Real.pi / 12) := Real.self_lt_sinh_iff.mpr hpos
  intro heq
  rw [heq] at hh
  linarith

/-- C1, counterexample: at `Ωk = 1/2 < 1`, `s_func` raises `ValueError`
instead of returning the claimed sinh value; and at `z = √6/2 − 1`,
`Ωm = 0, Ωl = 2, Ωr = 0, Ωk = 2 > 1` (where `i_integral` returns `π/12`),
`s_func` returns `sinh(π/12)`, not the claimed
`sin(i_integral·sqrt(Ωk−1))/sqrt(Ωk−1) = sin(π/12)`. -/
theorem s_func_branch_counterexample :
    s_func 0 0.27 0.73 0 (1/2) = Except.error PyError.valueError ∧
    s_func (Real.sqrt 6 / 2 - 1) 0 2 0 2 = Except.ok (Real.sinh (Real.pi / 12)) ∧
    s_func (Real.sqrt 6 / 2 - 1) 0 2 0 2 ≠
      Except.ok (Real.sin (Real.pi / 12 * Real.sqrt (2 - 1)) / Real.sqrt (2 - 1)) := by
  refine ⟨s_func_open 0 0.27 0.73 0 (1/2) (by norm_num), s_func_c1, ?_⟩
  rw [s_func_c1]
  intro hc
  have h := Except.ok.inj hc
  rw [show Real.sqrt (2 - 1) = 1 by norm_num] at h
  rw [mul_one, div_one] at h
  exact sinh_ne_sin_pi12 h

/-- C1 (amended): for every redshift `z` and parameters, `s_func` with
`Ωk = 1` returns `i_integral(z)` unchanged; with `Ωk > 1` it returns
`sinh(i_integral(z)·sqrt(Ωk−1))/sqrt(Ωk−1)` — `sinh`, not the claimed `sin` —
whenever `i_integral` returns a value; and with `Ωk < 1` it never returns:
it raises `ValueError` from taking the square root of the negative number
`Ωk − 1`. -/
theorem s_func_cases (z Ωm Ωl Ωr Ωk : ℝ) :
    (Ωk < 1 → s_func z Ωm Ωl Ωr Ωk = Except.error PyError.valueError) ∧
    (Ωk = 1 → s_func z Ωm Ωl Ωr Ωk = i_integral z Ωm Ωl Ωr Ωk) ∧
    (1 < Ωk → ∀ I, i_integral z Ωm Ωl Ωr Ωk = Except.ok I →
      s_func z Ωm Ωl Ωr Ωk =
        Except.ok (Real.sinh (I * Real.sqrt (Ωk - 1)) / Real.sqrt (Ωk - 1))) :=
  ⟨s_func_open z Ωm Ωl Ωr Ωk, s_func_flat z Ωm Ωl Ωr Ωk,
    fun h I hI => s_func_closed z Ωm Ωl Ωr Ωk h hI⟩

/-- Witness for `s_func_cases` at `z = 0` and `Ωk = 1/2`, `1`, `2`. -/
theorem s_func_cases_witness :
    s_func 0 0.27 0.73 0 0.5 = Except.error PyError.valueError ∧
    s_func 0 0.27 0.73 0 1 = i_integral 0 0.27 0.73 0 1 ∧
    s_func 0 0.27 0.73 0 2 =
      Except.ok (Real.sinh (0 * Real.sqrt (2 - 1)) / Real.sqrt (2 - 1)) :=
  ⟨(s_func_cases 0 0.27 0.73 0 0.5).1 (by norm_num),
    (s_func_cases 0 0.27 0.73 0 1).2.1 rfl,
    (s_func_cases 0 0.27 0.73 0 2).2.2 (by norm_num) 0 (i_integral_zero 0.27 0.73 0 2)⟩

/-- C2, counterexample: for the open cosmology `Ωk = 1/2`,
`comove_coord(0, …)` raises `ValueError` instead of returning `0`. -/
theorem comove_coord_zero_counterexample :
    comove_coord 0 0.27 0.73 0 0.5 = Except.error PyError.valueError ∧
    comove_coord 0 0.27 0.73 0 0.5 ≠ Except.ok 0 := by
  have h := comove_coord_err (s_func_open 0 0.27 0.73 0 0.5 (by norm_num))
  refine ⟨h, ?_⟩
  rw [h]
  simp

/-- C2 (amended): for every cosmology with `Ωk ≥ 1`, `comove_coord(0, …)`
returns `0` (the underlying integral from 0 to 0 is 0); for `Ωk < 1` the call
instead raises `ValueError` from `sqrt(Ωk − 1)`. -/
theorem comove_coord_zero (Ωm Ωl Ωr Ωk : ℝ) (h : 1 ≤ Ωk) :
    comove_coord 0 Ωm Ωl Ωr Ωk = Except.ok 0 :=
  comove_coord_zero_ge h

/-- Witness for `comove_coord_zero` at the concordance parameters. -/
theorem comove_coord_zero_witness :
    (1:ℝ) ≤ 1 ∧ comove_coord 0 0.27 0.73 0 1 = Except.ok 0 :=
  ⟨le_rfl, comove_coord_zero 0.27 0.73 0 1 le_rfl⟩

/-- C3: for every `Ωk < 1` and every redshift `z`, `s_func` raises
`ValueError` (from the square root of the negative `Ωk − 1`) and never
returns a value, and `comove_coord`, `luminosity_distance` and
`angular_distance` propagate the same `ValueError`. -/
theorem s_func_open_value_error (z Ωm Ωl Ωr Ωk : ℝ) (h : Ωk < 1) :
    s_func z Ωm Ωl Ωr Ωk = Except.error PyError.valueError ∧
    comove_coord z Ωm Ωl Ωr Ωk = Except.error PyError.valueError ∧
    luminosity_distance z Ωm Ωl Ωr Ωk = Except.error PyError.valueError ∧
    angular_distance z Ωm Ωl Ωr Ωk = Except.error PyError.valueError := by
  have hs := s_func_open z Ωm Ωl Ωr Ωk h
  have hc := comove_coord_err hs
  have hl := luminosity_err hc
  exact ⟨hs, hc, hl, angular_err hl⟩

/-- Witness for `s_func_open_value_error` at `z = 1`, `Ωk = 1/2`. -/
theorem s_func_open_value_error_witness :
    (0.5:ℝ) < 1 ∧
    (s_func 1 0.27 0.73 0 0.5 = Except.error PyError.valueError ∧
     comove_coord 1 0.27 0.73 0 0.5 = Except.error PyError.valueError ∧
     luminosity_distance 1 0.27 0.73 0 0.5 = Except.error PyError.valueError ∧
     angular_distance 1 0.27 0.73 0 0.5 = Except.error PyError.valueError) :=
  ⟨by norm_num, s_func_open_value_error 1 0.27 0.73 0 0.5 (by norm_num)⟩

/-- C4: every call of `cosmology.py`'s `universe_age` raises `NameError`
(the module-level name `hubble_constant` it reads is never defined
or imported in that module), while the `astroutils.py` copy never raises
`NameError`. -/
theorem universe_age_name_error (z Ωm Ωl Ωr Ωk : ℝ) :
    cosmology_universe_age z Ωm Ωl Ωr Ωk = Except.error PyError.nameError ∧
    astroutils_universe_age z Ωm Ωl Ωr Ωk ≠ Except.error PyError.nameError :=
  ⟨cosmology_universe_age_nameError z Ωm Ωl Ωr Ωk,
    astroutils_universe_age_not_nameError z Ωm Ωl Ωr Ωk⟩

/-- Witness for `universe_age_name_error` at the age defaults. -/
theorem universe_age_name_error_witness :
    cosmology_universe_age 0 0.27 0.73 8.24e-5 1 = Except.error PyError.nameError ∧
    astroutils_universe_age 0 0.27 0.73 8.24e-5 1 ≠ Except.error PyError.nameError :=
  universe_age_name_error 0 0.27 0.73 8.24e-5 1

/-- C5: for every eccentricity `e ∈ [0, 1)` and mean anomaly `M ∈ [0, 2π]`,
`manom_eanom(e, M)` returns a value `E` with `|E − e·sin E − M| ≤ 1e-10`. -/
theorem manom_eanom_kepler (e m : ℝ) (he0 : 0 ≤ e) (he1 : e < 1)
    (hm0 : 0 ≤ m) (hm1 : m ≤ 2 * Real.pi) :
    ∃ E, manom_eanom e m = Except.ok E ∧ |E - e * Real.sin E - m| ≤ 1 / 10^10 := by
  obtain ⟨E, hE, -, r, -, hr, hd⟩ := manom_eanom_ok e m hm0 hm1
  exact ⟨E, hE, kepler_residual he0 he1 hr hd⟩

/-- Witness for `manom_eanom_kepler` at `e = 0`, `M = 0`. -/
theorem manom_eanom_kepler_witness :
    (0:ℝ) ≤ 0 ∧ (0:ℝ) < 1 ∧ (0:ℝ) ≤ 2 * Real.pi ∧
    ∃ E, manom_eanom 0 0 = Except.ok E ∧ |E - 0 * Real.sin E - 0| ≤ 1 / 10^10 :=
  ⟨le_rfl, by norm_num, by positivity,
    manom_eanom_kepler 0 0 le_rfl (by norm_num) le_rfl (by positivity)⟩

/-- C6: `manom_eanom(e, M)` raises its `ValueError` (the spec's
`DomainError`, message `mean anomaly must be an angle between 0 and 2pi`)
exactly when `M < 0` or `M > 2π` — the check precedes any root solving — and
for `M ∈ [0, 2π]` it returns a value instead. -/
theorem manom_eanom_domain_check (e m : ℝ) :
    ((m < 0 ∨ 2 * Real.pi < m) → manom_eanom e m = Except.error PyError.valueError) ∧
    (0 ≤ m → m ≤ 2 * Real.pi → ∃ E, manom_eanom e m = Except.ok E) := by
  refine ⟨fun h => manom_eanom_out_of_range h, fun hm0 hm1 => ?_⟩
  obtain ⟨E, hE, -⟩ := manom_eanom_ok e m hm0 hm1
  exact ⟨E, hE⟩

/-- Witness for `manom_eanom_domain_check` at `M = -0.1`, `M = 7` and
`M = 1`. -/
theorem manom_eanom_domain_check_witness :
    manom_eanom 0.5 (-0.1) = Except.error PyError.valueError ∧
    manom_eanom 0.5 7 = Except.error PyError.valueError ∧
    ∃ E, manom_eanom 0.5 1 = Except.ok E := by
  refine ⟨(manom_eanom_domain_check 0.5 (-0.1)).1 (Or.inl (by norm_num)),
    (manom_eanom_domain_check 0.5 7).1 (Or.inr ?_),
    (manom_eanom_domain_check 0.5 1).2 (by norm_num) ?_⟩
  · linarith [Real.pi_lt_d2]
  · linarith [Real.pi_gt_three]

/-- C7: for every `z ≥ 0` and every cosmology, whenever `comove_coord`
returns `d`, `luminosity_distance` returns `d·(1+z)`, and whenever
`luminosity_distance` returns `l`, `angular_distance` returns `l/(1+z)²`. -/
theorem distance_relations (z Ωm Ωl Ωr Ωk : ℝ) (hz : 0 ≤ z) :
    (∀ d, comove_coord z Ωm Ωl Ωr Ωk = Except.ok d →
      luminosity_distance z Ωm Ωl Ωr Ωk = Except.ok (d * (1 + z))) ∧
    (∀ l, luminosity_distance z Ωm Ωl Ωr Ωk = Except.ok l →
      angular_distance z Ωm Ωl Ωr Ωk = Except.ok (l / (1 + z)^2)) := by
  have hne : (1 + z)^2 ≠ 0 := by
    have h1 : (0:ℝ) < 1 + z := by linarith
    positivity
  exact ⟨fun d hd => luminosity_ok hd, fun l hl => angular_ok hl hne⟩

/-- Witness for `distance_relations` at `z = 0` under the flat defaults. -/
theorem distance_relations_witness :
    (0:ℝ) ≤ 0 ∧
    luminosity_distance 0 0.27 0.73 0 1 = Except.ok (0 * (1 + 0)) ∧
    angular_distance 0 0.27 0.73 0 1 = Except.ok ((0 * (1 + 0)) / (1 + 0)^2) := by
  have h := distance_relations 0 0.27 0.73 0 1 le_rfl
  have hc : comove_coord 0 0.27 0.73 0 1 = Except.ok 0 := comove_coord_zero_ge le_rfl
  have hl := h.1 0 hc
  exact ⟨le_rfl, hl, h.2 _ hl⟩

/-- C8: for `e ∈ [0, 1)` and `M ∈ [0, 2π]`, the bracket function
`f(E) = E − e·sin E − M` is strictly increasing on `[0, 2π]`, satisfies
`f(0) ≤ 0 ≤ f(2π)`, has exactly one root in `[0, 2π]`, and the root finder's
no-sign-change precondition (`0 < f(0)·f(2π)`) never holds. -/
theorem kepler_bracket_sound (e m : ℝ) (he0 : 0 ≤ e) (he1 : e < 1)
    (hm0 : 0 ≤ m) (hm1 : m ≤ 2 * Real.pi) :
    StrictMonoOn (keplerF e m) (Set.Icc 0 (2 * Real.pi)) ∧
    keplerF e m 0 ≤ 0 ∧ 0 ≤ keplerF e m (2 * Real.pi) ∧
    (∃! E, E ∈ Set.Icc 0 (2 * Real.pi) ∧ keplerF e m E = 0) ∧
    ¬ 0 < keplerF e m 0 * keplerF e m (2 * Real.pi) := by
  have hmono := keplerF_strictMono he0 he1 m
  have hends := keplerF_ends e m
  refine ⟨hmono.strictMonoOn _, by rw [hends.1]; linarith, by rw [hends.2]; linarith, ?_, ?_⟩
  · obtain ⟨r, hrmem, hr⟩ := keplerF_root (e := e) hm0 hm1
    refine ⟨r, ⟨hrmem, hr⟩, ?_⟩
    rintro y ⟨hymem, hy⟩
    exact hmono.injective (hy.trans hr.symm)
  · rw [hends.1, hends.2]
    push_neg
    nlinarith

/-- Witness for `kepler_bracket_sound` at `e = 1/2`, `M = 1`. -/
theorem kepler_bracket_sound_witness :
    (0:ℝ) ≤ 0.5 ∧ (0.5:ℝ) < 1 ∧ (0:ℝ) ≤ 1 ∧ (1:ℝ) ≤ 2 * Real.pi ∧
    (StrictMonoOn (keplerF 0.5 1) (Set.Icc 0 (2 * Real.pi)) ∧
     keplerF 0.5 1 0 ≤ 0 ∧ 0 ≤ keplerF 0.5 1 (2 * Real.pi) ∧
     (∃! E, E ∈ Set.Icc 0 (2 * Real.pi) ∧ keplerF 0.5 1 E = 0) ∧
     ¬ 0 < keplerF 0.5 1 0 * keplerF 0.5 1 (2 * Real.pi)) := by
  have hpi := Real.pi_gt_three
  exact ⟨by norm_num, by norm_num, by norm_num, by linarith,
    kepler_bracket_sound 0.5 1 (by norm_num) (by norm_num) (by norm_num) (by linarith)⟩

/-- C9, counterexample: with `z = 2`, `Ωm = 1, Ωl = 4, Ωr = 0, Ωk = 4` the
radicand is zero at the interior point `x = 1` (and positive elsewhere), and
`i_integral` raises `ZeroDivisionError` — not the math-domain `ValueError`. -/
theorem i_integral_zero_radicand_counterexample :
    (1:ℝ) ∈ Set.uIoc (0:ℝ) 2 ∧ radicand 1 1 4 0 4 ≤ 0 ∧
    i_integral 2 1 4 0 4 = Except.error PyError.zeroDivisionError ∧
    PyError.zeroDivisionError ≠ PyError.valueError := by
  refine ⟨?_, by rw [radicand_c9]; norm_num, i_integral_c9, by simp⟩
  rw [Set.uIoc_of_le (by norm_num : (0:ℝ) ≤ 2)]
  exact ⟨by norm_num, by norm_num⟩

/-- C9 (amended): when the radicand is zero or negative somewhere on the
integration interval, `i_integral` raises an exception instead of returning
a value; the exception is the math-domain `ValueError` whenever the radicand
never vanishes on the interval (a vanishing radicand raises
`ZeroDivisionError` from `1/sqrt(0)` instead). -/
theorem i_integral_bad_radicand (z Ωm Ωl Ωr Ωk : ℝ)
    (h : ∃ x ∈ Set.uIoc 0 z, radicand x Ωm Ωl Ωr Ωk ≤ 0) :
    (∃ e, i_integral z Ωm Ωl Ωr Ωk = Except.error e) ∧
    ((∀ x ∈ Set.uIoc 0 z, radicand x Ωm Ωl Ωr Ωk ≠ 0) →
      i_integral z Ωm Ωl Ωr Ωk = Except.error PyError.valueError) :=
  ⟨i_integral_bad z Ωm Ωl Ωr Ωk h, fun hnz => i_integral_neg_radicand z Ωm Ωl Ωr Ωk h hnz⟩

/-- Witness for `i_integral_bad_radicand` at `z = 1`,
`Ωm = Ωl = Ωr = 0, Ωk = 2` (radicand `−(1+x)²`). -/
theorem i_integral_bad_radicand_witness :
    (∃ e, i_integral 1 0 0 0 2 = Except.error e) ∧
    i_integral 1 0 0 0 2 = Except.error PyError.valueError := by
  have hbad : ∃ x ∈ Set.uIoc (0:ℝ) 1, radicand x 0 0 0 2 ≤ 0 := by
    refine ⟨1, ?_, ?_⟩
    · rw [Set.uIoc_of_le (by norm_num : (0:ℝ) ≤ 1)]
      exact ⟨by norm_num, le_rfl⟩
    · rw [radicand]
      norm_num
  have h := i_integral_bad_radicand 1 0 0 0 2 hbad
  refine ⟨h.1, h.2 ?_⟩
  intro x hx
  rw [Set.uIoc_of_le (by norm_num : (0:ℝ) ≤ 1)] at hx
  rw [radicand]
  intro hc
  nlinarith [hx.1]

/-- C10: the second type-check branch of `wilson_score` tests `p` again, not
`n`, so its `TypeError('wilson_score(): n must be a number')` is unreachable
for every input — in particular for every non-numeric `n` with numeric `p`
and `z`. -/
theorem wilson_score_n_typecheck_dead (p n z : PyVal) :
    wilson_score p n z ≠ Except.error WilsonError.typeErrN :=
  wilson_score_no_typeErrN p n z

/-- Witness for `wilson_score_n_typecheck_dead` at a non-numeric `n`. -/
theorem wilson_score_n_typecheck_dead_witness :
    wilson_score (PyVal.float 0.5) (PyVal.str "abc") (PyVal.float 1) ≠
      Except.error WilsonError.typeErrN :=
  wilson_score_n_typecheck_dead (PyVal.float 0.5) (PyVal.str "abc") (PyVal.float 1)
